import Mathlib

/-!
# Verification of the whale-tracker monitoring pipeline

A shallow embedding of the subscription/reconnection manager and the
event-to-notification dispatch pipeline of the Hyperliquid whale-tracker bot
(`monitoring.py`, `database.py`, `config.py`), together with proofs of the
behavioural claims about it.

Conventions of the embedding:
* Python floats appearing as prices/sizes/thresholds are modelled as `ℚ`
  (the claims are about the algebraic structure of the computations, not
  about rounding).
* Wall-clock timestamps fed to the rate limiter are modelled as `ℕ`
  seconds; `floor(time.time() / 60) * 60` becomes `now / 60 * 60` with
  natural division.
* A Python value that is either absent or `None`/empty is modelled with
  `Option`; a dict field that may hold a number, a falsy value, or a
  truthy non-numeric value (on which `float(...)` raises) is modelled by
  `Option PyVal`.
* Fallible Python code (a `float(...)` call that can raise) returns
  `Except Unit`.
-/

namespace WhaleBot

/-- A Python value sitting in a `px`/`sz` field of an event dict, as seen by
`float(d.get(k, 0) or 0)`: a numeric value (number or numeric string), a
falsy non-numeric value (`None`, `""`, empty containers — squashed to `0` by
`or 0`), or a truthy non-numeric value (on which `float` raises). -/
inductive PyVal where
  | num (q : ℚ)
  | falsy
  | badTruthy
deriving DecidableEq, Repr

/-- `float(d.get(key, 0) or 0)`: a missing key defaults to `0`, a falsy value
is squashed to `0` by `or 0`, a numeric value is converted, and a truthy
non-numeric value raises (modelled as `Except.error`). -/
def pyToFloat : Option PyVal → Except Unit ℚ
  | none => .ok 0
  | some (.num q) => .ok q
  | some .falsy => .ok 0
  | some .badTruthy => .error ()

/-- Python `a or b` on optional strings: an absent or empty string falls
through to the second operand. -/
def pyStrOr (a b : Option String) : Option String :=
  match a with
  | some s => if s = "" then b else some s
  | none => b

/-- Python `str.lower()` (the addresses it is applied to are ASCII hex
strings, so per-character ASCII lowering is the whole behaviour). -/
def strToLower (s : String) : String := ⟨s.data.map Char.toLower⟩

/-- String prefix test, used to model SQLite `LIKE pat || '%'`. -/
def strIsPrefixOf (p s : String) : Bool := p.data.isPrefixOf s.data

/-! ## `config.py` -/

/-- `DEFAULT_TRADE_THRESHOLD_USD = 100000.0` from `config.py`. -/
def DEFAULT_TRADE_THRESHOLD_USD : ℚ := 100000

/-! ## `database.py`

The SQLite store is modelled as in-memory lists:
* `tracked_wallets (chat_id, wallet_address)` with its composite primary key
  becomes a list of pairs;
* `user_settings (chat_id PRIMARY KEY, threshold REAL NOT NULL,
  order_threshold REAL)` becomes a list of `(chat_id, threshold,
  order_threshold)` triples, looked up with `find?` (the primary key makes
  `fetchone` deterministic).
-/

abbrev ChatId := ℤ

structure DB where
  trackedWallets : List (ChatId × String)
  userSettings : List (ChatId × ℚ × Option ℚ)
deriving Repr

/-- `get_users_tracking_wallet`: first an exact (case-sensitive `=`) match on
the lower-cased address; if that yields no rows and the address has length at
least 10, fall back to a `LIKE address.lower() + '%'` search, i.e. every
stored wallet whose (ASCII-case-insensitively compared) address starts with
the event address. -/
def get_users_tracking_wallet (db : DB) (address : String) : List ChatId :=
  let addr := strToLower address
  let users := (db.trackedWallets.filter (fun p => p.2 == addr)).map Prod.fst
  if users.isEmpty && decide (10 ≤ address.length) then
    (db.trackedWallets.filter (fun p => strIsPrefixOf addr (strToLower p.2))).map Prod.fst
  else
    users

/-- `get_user_threshold`: the stored `threshold` of the user's settings row,
or the global default when the user has no row. -/
def get_user_threshold (db : DB) (chat_id : ChatId) : ℚ :=
  match db.userSettings.find? (fun r => r.1 == chat_id) with
  | some r => r.2.1
  | none => DEFAULT_TRADE_THRESHOLD_USD

/-- `get_user_order_threshold`: the stored `order_threshold` when it is set
(`is not None`) and strictly positive; otherwise the row's base `threshold`
when strictly positive (`base_threshold and base_threshold > 0`); otherwise
the global default. No settings row at all also yields the default. -/
def get_user_order_threshold (db : DB) (chat_id : ChatId) : ℚ :=
  match db.userSettings.find? (fun r => r.1 == chat_id) with
  | none => DEFAULT_TRADE_THRESHOLD_USD
  | some r =>
    let base_threshold := r.2.1
    match r.2.2 with
    | some order_threshold =>
      if 0 < order_threshold then order_threshold
      else if 0 < base_threshold then base_threshold
      else DEFAULT_TRADE_THRESHOLD_USD
    | none =>
      if 0 < base_threshold then base_threshold
      else DEFAULT_TRADE_THRESHOLD_USD

/-! ## `SimpleRateLimiter` (monitoring.py lines 18–46) -/

structure SimpleRateLimiter where
  max_requests_per_minute : ℕ
  current_minute : ℕ
  current_requests : ℕ
deriving DecidableEq, Repr

/-- `_get_current_minute`: `floor(time.time() / 60) * 60`. -/
def getCurrentMinute (now : ℕ) : ℕ := now / 60 * 60

/-- `SimpleRateLimiter.__init__`: counter starts at 0 in the construction
minute. -/
def mkRateLimiter (maxReq now : ℕ) : SimpleRateLimiter :=
  ⟨maxReq, getCurrentMinute now, 0⟩

/-- `_reset_if_new_minute`: when the wall-clock minute boundary has advanced
past the recorded minute, re-key to the new minute and zero the counter. -/
def resetIfNewMinute (l : SimpleRateLimiter) (now : ℕ) : SimpleRateLimiter :=
  let current := getCurrentMinute now
  if l.current_minute < current then
    { l with current_minute := current, current_requests := 0 }
  else l

/-- `can_make_request`: reset on a minute-boundary advance, then compare the
counter with the budget.  The mutated limiter is returned alongside the
answer. -/
def canMakeRequest (l : SimpleRateLimiter) (now : ℕ) : Bool × SimpleRateLimiter :=
  let l1 := resetIfNewMinute l now
  (decide (l1.current_requests < l1.max_requests_per_minute), l1)

/-- `add_request`: reset on a minute-boundary advance, then count one
request. -/
def addRequest (l : SimpleRateLimiter) (now : ℕ) : SimpleRateLimiter :=
  let l1 := resetIfNewMinute l now
  { l1 with current_requests := l1.current_requests + 1 }

/-- A sequence of `add_request` calls at the given timestamps. -/
def runRequests (l : SimpleRateLimiter) (ts : List ℕ) : SimpleRateLimiter :=
  ts.foldl addRequest l

/-! ## Inbound events and `on_user_event` (monitoring.py lines 105–348)

The raw WebSocket message is a nested Python dict.  Only the fields the
callback reads are modelled.  A string-valued field that may be absent or
`None` is `Option String` (an empty string behaves like absence under the
`or` chains, which `pyStrOr` reproduces). -/

/-- The dict describing one fill, or the `placed`/`canceled` details dict of
one order update: the fields read are `user`, `coin`, `px`, `sz`, `side`. -/
structure FillData where
  user : Option String
  coin : Option String
  px : Option PyVal
  sz : Option PyVal
  side : Option String
deriving Repr

/-- One element of the `orderUpdates` array (or the wrapper dict of a typed
order event).  For each of the `placed`/`canceled`/`cancelled` keys,
`none` = key absent, `some none` = key present with a falsy value (the
`or dict()` turns it into an empty details dict, which the `if not details`
guard then skips), `some (some d)` = key present with a non-empty dict. -/
structure OrderUpdateEntry where
  placed : Option (Option FillData)
  canceled : Option (Option FillData)
  cancelled : Option (Option FillData)
  user : Option String
  coin : Option String
deriving Repr

/-- The dict under the event's `data` key.  `dataFill`/`dataOrder` are the
two views the typed-event branches take of the same nested `data` dict
(`evt["data"]` read as a fill, `evt.get("data", dict()) or dict()` read as
an order wrapper); only the branch selected by `type` ever looks at it. -/
structure RawEventData where
  type : Option String
  user : Option String
  fills : Option (List FillData)
  orderUpdates : Option (List OrderUpdateEntry)
  dataFill : Option FillData
  dataOrder : Option OrderUpdateEntry
deriving Repr

/-- The whole WebSocket message: `channel` plus the `data` dict (an absent
`data` key is the record with every field `none`). -/
structure RawEvent where
  channel : Option String
  data : RawEventData
deriving Repr

inductive OrderAction where
  | placed
  | canceled
deriving DecidableEq, Repr

inductive NotifKind where
  | fill
  | order (action : OrderAction)
deriving DecidableEq, Repr

/-- One entry put on the notification queue: the destination chat and the
kind of event (the payload itself carries no information the claims
examine). -/
structure Notification where
  chatId : ChatId
  kind : NotifKind
deriving DecidableEq, Repr

/-- `connection_status`: the dict shared between the ingestion callback and
the reconciler loop. -/
structure ConnectionStatus where
  connected : Bool
  lastHeartbeat : ℚ
deriving DecidableEq, Repr

/-- Wallet resolution in the fills-array branch:
`(fill.get("user") or evt.get("user") or "").lower()`. -/
def fillWallet (evtUser : Option String) (fill : FillData) : String :=
  strToLower ((pyStrOr fill.user evtUser).getD "")

/-- Wallet resolution in the orderUpdates-array branch:
`(details.get("user") or order_wrapper.get("user") or evt.get("user") or "").lower()`. -/
def orderArrayWallet (evtUser : Option String) (u : OrderUpdateEntry) (details : FillData) : String :=
  strToLower ((pyStrOr details.user (pyStrOr u.user evtUser)).getD "")

/-- Wallet resolution in the typed-fill branch: `(fill.get("user") or "").lower()`. -/
def typedFillWallet (fill : FillData) : String :=
  strToLower ((pyStrOr fill.user none).getD "")

/-- Wallet resolution in the typed-order branch:
`(details.get("user") or order_wrapper.get("user") or "").lower()` — note
this branch, unlike the array branch, has no `evt.get("user")` fallback. -/
def typedOrderWallet (u : OrderUpdateEntry) (details : FillData) : String :=
  strToLower ((pyStrOr details.user (pyStrOr u.user none)).getD "")

/-- The notional of a fill: `float(px or 0) * float(sz or 0)`; a truthy
non-numeric `px`/`sz` raises, which the caller turns into a dropped fill. -/
def fillNotional (d : FillData) : Except Unit ℚ :=
  match pyToFloat d.px, pyToFloat d.sz with
  | .ok price, .ok size => .ok (price * size)
  | _, _ => .error ()

/-- The notional of an order event:
`price * size if price and size else 0.0` after the same two `float` calls. -/
def orderNotional (d : FillData) : Except Unit ℚ :=
  match pyToFloat d.px, pyToFloat d.sz with
  | .ok price, .ok size => .ok (if price ≠ 0 ∧ size ≠ 0 then price * size else 0)
  | _, _ => .error ()

/-- Action/details selection for one order update: try `placed`, then
`canceled`, then the British `cancelled`, in that order; the second
component is the (possibly empty, hence `Option`) details dict. -/
def selectOrderDetails (u : OrderUpdateEntry) : Option OrderAction × Option FillData :=
  match u.placed with
  | some d => (some .placed, d)
  | none =>
    match u.canceled with
    | some d => (some .canceled, d)
    | none =>
      match u.cancelled with
      | some d => (some .canceled, d)
      | none => (none, none)

/-- Processing of one element of the `fills` array (lines 127–171): resolve
the wallet, compute the notional (a raised `float` is caught by the per-fill
`try` and drops just this fill), skip an empty wallet, then enqueue one fill
notification for every tracking user whose trade threshold the notional
meets. -/
def fillNotifs (db : DB) (evtUser : Option String) (fill : FillData) : List Notification :=
  match fillNotional fill with
  | .error _ => []
  | .ok size_usd =>
    let wallet := fillWallet evtUser fill
    if wallet = "" then []
    else
      (get_users_tracking_wallet db wallet).filterMap fun chat_id =>
        if get_user_threshold db chat_id ≤ size_usd then some ⟨chat_id, .fill⟩ else none

def processFillsArray (db : DB) (evtUser : Option String) : List FillData → List Notification
  | [] => []
  | fill :: rest => fillNotifs db evtUser fill ++ processFillsArray db evtUser rest

/-- Processing of one element of the `orderUpdates` array (lines 175–235):
select the action and details (an element with no `placed`/`canceled` key, or
with an empty details dict, is skipped), resolve the wallet, compute the
order notional (a raised `float` drops just this element), skip an empty
wallet, then enqueue one order notification for every tracking user whose
order threshold the notional meets. -/
def orderUpdateNotifs (db : DB) (evtUser : Option String) (u : OrderUpdateEntry) : List Notification :=
  match selectOrderDetails u with
  | (some action, some details) =>
    match orderNotional details with
    | .error _ => []
    | .ok size_usd =>
      let wallet := orderArrayWallet evtUser u details
      if wallet = "" then []
      else
        (get_users_tracking_wallet db wallet).filterMap fun chat_id =>
          if get_user_order_threshold db chat_id ≤ size_usd then some ⟨chat_id, .order action⟩
          else none
  | _ => []

def processOrderUpdates (db : DB) (evtUser : Option String) : List OrderUpdateEntry → List Notification
  | [] => []
  | u :: rest => orderUpdateNotifs db evtUser u ++ processOrderUpdates db evtUser rest

/-- The typed-fill branch (lines 239–280): `evt["data"]` (a missing or
non-dict value raises, producing nothing), a missing `coin` key raises on
`fill["coin"]`, a raised `float` likewise aborts; there is **no** empty-wallet
skip in this branch, so the tracking lookup runs even for `""`. -/
def typedFillNotifs (db : DB) (fillOpt : Option FillData) : List Notification :=
  match fillOpt with
  | none => []
  | some fill =>
    match fill.coin with
    | none => []
    | some _ =>
      match fillNotional fill with
      | .error _ => []
      | .ok size_usd =>
        (get_users_tracking_wallet db (typedFillWallet fill)).filterMap fun chat_id =>
          if get_user_threshold db chat_id ≤ size_usd then some ⟨chat_id, .fill⟩ else none

/-- The typed-order branch (lines 283–345): `evt.get("data", dict()) or dict()`
(a falsy `data` gives an empty wrapper, hence no details and an early
return), then the same selection/notional/wallet logic as the array branch
except that the wallet has no event-level fallback. -/
def typedOrderNotifs (db : DB) (wrapperOpt : Option OrderUpdateEntry) : List Notification :=
  match wrapperOpt with
  | none => []
  | some u =>
    match selectOrderDetails u with
    | (some action, some details) =>
      match orderNotional details with
      | .error _ => []
      | .ok size_usd =>
        let wallet := typedOrderWallet u details
        if wallet = "" then []
        else
          (get_users_tracking_wallet db wallet).filterMap fun chat_id =>
            if get_user_order_threshold db chat_id ≤ size_usd then some ⟨chat_id, .order action⟩
            else none
    | _ => []

/-- The notifications attempted by one `on_user_event` call for a non-empty
event: nothing for an unrecognized channel; otherwise the `fills` array, the
`orderUpdates` array, and the typed-event branch, in that order, each
contributing independently. -/
def on_user_event_notifs (db : DB) (ev : RawEvent) : List Notification :=
  if ev.channel = some "userEvents" ∨ ev.channel = some "user" then
    let evt := ev.data
    let fromFills :=
      match evt.fills with
      | some l => processFillsArray db evt.user l
      | none => []
    let fromOrderUpdates :=
      match evt.orderUpdates with
      | some l => processOrderUpdates db evt.user l
      | none => []
    let fromTyped :=
      if evt.type = some "fill" then typedFillNotifs db evt.dataFill
      else if evt.type = some "orderUpdate" ∨ evt.type = some "order_update" ∨
          evt.type = some "order" then typedOrderNotifs db evt.dataOrder
      else []
    fromFills ++ fromOrderUpdates ++ fromTyped
  else []

/-- `on_user_event` (lines 105–348): the connection-status update
(`last_heartbeat = now`, `connected = True`) is executed first,
unconditionally, before the emptiness check and the channel check; the prior
status is overwritten whatever it was.  A falsy event (`if not event:
return`) is `none`. -/
def on_user_event (_status : ConnectionStatus) (now : ℚ) (db : DB)
    (event : Option RawEvent) : ConnectionStatus × List Notification :=
  let status' : ConnectionStatus := ⟨true, now⟩
  match event with
  | none => (status', [])
  | some ev => (status', on_user_event_notifs db ev)

/-! ## `monitor_worker` (monitoring.py lines 461–611)

The loop body is modelled as step functions on the `retry_count` counter,
one per control-flow branch, each returning the new counter together with
whether the iteration falls through to the next one or `break`s out of the
loop.  Sleeps and logging are side effects the claims do not observe, except
for the backoff sleep duration, which is modelled by `reconnectDelay` /
`reconnectSleepTime`. -/

/-- `RECONNECT_BASE_DELAY_SEC = 1` (line 100). -/
def RECONNECT_BASE_DELAY_SEC : ℚ := 1

/-- `RECONNECT_MAX_DELAY_SEC = 30` (line 101). -/
def RECONNECT_MAX_DELAY_SEC : ℚ := 30

/-- `MAX_RECONNECT_ATTEMPTS = 10` (line 102). -/
def MAX_RECONNECT_ATTEMPTS : ℕ := 10

/-- The local `max_retries = 5` of `monitor_worker` (line 474), shared by the
not-connected reconnect path and the broad `except` branch. -/
def monitorMaxRetries : ℕ := 5

/-- The jitter-free reconnect delay (lines 538 and 574):
`min(RECONNECT_BASE_DELAY_SEC * (2 ** min(retry_count, 5)), RECONNECT_MAX_DELAY_SEC)`. -/
def reconnectDelay (retry_count : ℕ) : ℚ :=
  min (RECONNECT_BASE_DELAY_SEC * 2 ^ min retry_count 5) RECONNECT_MAX_DELAY_SEC

/-- The slept reconnect time `delay + jitter` with
`jitter = random.uniform(0, 0.3 * delay)` passed in explicitly. -/
def reconnectSleepTime (retry_count : ℕ) (jitter : ℚ) : ℚ :=
  reconnectDelay retry_count + jitter

/-- Outcome of one loop iteration: fall through to the next iteration, or
`break` out of `monitor_worker`. -/
inductive LoopOutcome where
  | continueLoop
  | halt
deriving DecidableEq, Repr

/-- The not-connected branch (lines 543–583): increment first; at
`MAX_RECONNECT_ATTEMPTS` reset the counter, take the long pause and
`continue` (the session is not recreated this iteration); otherwise recreate
the session — on success zero the counter, on failure keep it and sleep the
backoff — and then `break` if the counter has reached the *shared*
`max_retries` budget. -/
def stepNotConnected (retry_count : ℕ) (recreateOk : Bool) : ℕ × LoopOutcome :=
  let rc := retry_count + 1
  if MAX_RECONNECT_ATTEMPTS ≤ rc then (0, .continueLoop)
  else
    let rc' := if recreateOk then 0 else rc
    if monitorMaxRetries ≤ rc' then (rc', .halt) else (rc', .continueLoop)

/-- The connected-but-silent branch (lines 513–542), taken when
`idle_sec > HEARTBEAT_RECONNECT_SEC`: on a successful recreation zero the
counter; on failure increment it, and at `MAX_RECONNECT_ATTEMPTS` reset it
and take the long pause — this branch never `break`s. -/
def stepSilentReconnect (retry_count : ℕ) (recreateOk : Bool) : ℕ × LoopOutcome :=
  if recreateOk then (0, .continueLoop)
  else
    let rc := retry_count + 1
    if MAX_RECONNECT_ATTEMPTS ≤ rc then (0, .continueLoop)
    else (rc, .continueLoop)

/-- The broad `except` branch (lines 599–609): increment, and `break` once
the shared `max_retries` budget is reached. -/
def stepException (retry_count : ℕ) : ℕ × LoopOutcome :=
  let rc := retry_count + 1
  if monitorMaxRetries ≤ rc then (rc, .halt) else (rc, .continueLoop)

/-- `n` consecutive not-connected iterations whose session recreation all
fail, starting from the given counter; stops early on a `break`. -/
def runNotConnectedFailures : ℕ → ℕ → ℕ × LoopOutcome
  | 0, rc => (rc, .continueLoop)
  | n + 1, rc =>
    match stepNotConnected rc false with
    | (rc', .continueLoop) => runNotConnectedFailures n rc'
    | (rc', .halt) => (rc', .halt)

/-! ## The subscription-reconciliation part of a tick (lines 479–502) -/

/-- The subscribe loop over `new_wallets` (lines 486–494): re-check
membership of the live set, ask the rate limiter, subscribe and count the
request while it permits, and `break` out of the whole loop on the first
refusal. -/
def subscribeLoop (now : ℕ) :
    SimpleRateLimiter → List String → List String → List String × SimpleRateLimiter
  | l, _, [] => ([], l)
  | l, subscribed, w :: rest =>
    if w ∈ subscribed then subscribeLoop now l subscribed rest
    else
      let c := canMakeRequest l now
      if c.1 then
        let s := subscribeLoop now (addRequest c.2 now) (w :: subscribed) rest
        (w :: s.1, s.2)
      else ([], c.2)

/-- The observable outcome of one reconciler tick's subscription delta:
which wallets were subscribed, which were unsubscribed, and the rate-limiter
state afterwards. -/
structure TickResult where
  subscribes : List String
  unsubscribes : List String
  limiter : SimpleRateLimiter
deriving DecidableEq, Repr

/-- One reconciler tick's subscription reconciliation (lines 479–502):
subscribe to `wallets_in_db - subscribed_wallets` under the rate limiter,
then unsubscribe every wallet of `subscribed_wallets - wallets_in_db` —
the unsubscribe loop consults no rate limiter. -/
def reconcilerTick (now : ℕ) (l : SimpleRateLimiter)
    (wallets_in_db subscribed_wallets : List String) : TickResult :=
  let new_wallets := wallets_in_db.filter (fun w => decide (w ∉ subscribed_wallets))
  let s := subscribeLoop now l subscribed_wallets new_wallets
  let removed_wallets := subscribed_wallets.filter (fun w => decide (w ∉ wallets_in_db))
  ⟨s.1, removed_wallets, s.2⟩

/-! ## Helper lemmas -/

theorem strToLower_eq_empty_iff (s : String) : strToLower s = "" ↔ s = "" := by
  constructor
  · intro h
    have hdata : s.data.map Char.toLower = [] := congrArg String.data h
    have hnil : s.data = [] := List.map_eq_nil_iff.mp hdata
    apply String.ext
    rw [hnil]
  · intro h
    subst h
    rfl

/-! ## Claim theorems -/

/-- C10: every invocation of `on_user_event` — for an empty event, an event
on an unrecognized channel, or any malformed event — overwrites the shared
connection-health state with `connected = true` and `last_heartbeat = now`
before any validation or classification; events that produce no notification
still refresh the heartbeat. -/
theorem C10_heartbeat_set_unconditionally (st : ConnectionStatus) (now : ℚ) (db : DB)
    (event : Option RawEvent) :
    (on_user_event st now db event).1 = ⟨true, now⟩
    ∧ (on_user_event st now db none).2 = []
    ∧ (∀ ev : RawEvent, ¬(ev.channel = some "userEvents" ∨ ev.channel = some "user") →
        (on_user_event st now db (some ev)).2 = []) := by
  refine ⟨?_, rfl, ?_⟩
  · cases event <;> rfl
  · intro ev h
    simp [on_user_event, on_user_event_notifs, h]

/-- C10 witness: a concrete event on an unrecognized channel refreshes the
heartbeat and produces nothing. -/
theorem C10_witness :
    (on_user_event ⟨false, 0⟩ 5 ⟨[], []⟩
        (some ⟨some "candle", ⟨none, none, none, none, none, none⟩⟩)).2 = []
    ∧ (on_user_event ⟨false, 0⟩ 5 ⟨[], []⟩
        (some ⟨some "candle", ⟨none, none, none, none, none, none⟩⟩)).1 = ⟨true, 5⟩ :=
  ⟨(C10_heartbeat_set_unconditionally ⟨false, 0⟩ 5 ⟨[], []⟩
      (some ⟨some "candle", ⟨none, none, none, none, none, none⟩⟩)).2.2
      ⟨some "candle", ⟨none, none, none, none, none, none⟩⟩ (by decide),
   (C10_heartbeat_set_unconditionally ⟨false, 0⟩ 5 ⟨[], []⟩
      (some ⟨some "candle", ⟨none, none, none, none, none, none⟩⟩)).1⟩

/-- C3 counterexample: five consecutive not-connected iterations whose
session recreation fails make the loop `break` out of `monitor_worker` via
the reconnect path itself (no broad-except iteration involved), with the
retry counter at `max_retries = 5`, strictly below
`MAX_RECONNECT_ATTEMPTS = 10` — refuting "the loop exits fatally only when
the broad-except retry budget is exceeded". -/
theorem C3_counterexample :
    runNotConnectedFailures 5 0 = (5, .halt)
    ∧ monitorMaxRetries < MAX_RECONNECT_ATTEMPTS := by
  decide

/-- C3 amended: reaching `MAX_RECONNECT_ATTEMPTS` does reset the counter and
continue (in both reconnect paths, and the silent-reconnect path never
`break`s), and the broad-except branch `break`s exactly at the `max_retries`
budget; but the not-connected reconnect path *also* `break`s — on a failed
recreation there, the loop halts exactly when the shared counter reaches
`max_retries = 5`, while a successful recreation resets the counter and
continues. -/
theorem C3_amended_retry_semantics :
    (∀ rc : ℕ, ∀ ok : Bool, MAX_RECONNECT_ATTEMPTS ≤ rc + 1 →
        stepNotConnected rc ok = (0, .continueLoop))
    ∧ (∀ rc : ℕ, ∀ ok : Bool, (stepSilentReconnect rc ok).2 = .continueLoop)
    ∧ (∀ rc : ℕ, (stepException rc).2 = .halt ↔ monitorMaxRetries ≤ rc + 1)
    ∧ (∀ rc : ℕ, rc + 1 < MAX_RECONNECT_ATTEMPTS →
        ((stepNotConnected rc false).2 = .halt ↔ monitorMaxRetries ≤ rc + 1))
    ∧ (∀ rc : ℕ, rc + 1 < MAX_RECONNECT_ATTEMPTS →
        stepNotConnected rc true = (0, .continueLoop)) := by
  refine ⟨?_, ?_, ?_, ?_, ?_⟩
  · intro rc ok h
    simp [stepNotConnected, h]
  · intro rc ok
    cases ok
    · simp only [stepNotConnected, stepSilentReconnect, Bool.false_eq_true, if_false]
      split <;> rfl
    · rfl
  · intro rc
    by_cases h : monitorMaxRetries ≤ rc + 1 <;> simp [stepException, h]
  · intro rc h
    have h' : ¬ MAX_RECONNECT_ATTEMPTS ≤ rc + 1 := by omega
    by_cases h2 : monitorMaxRetries ≤ rc + 1 <;> simp [stepNotConnected, h', h2]
  · intro rc h
    have h' : ¬ MAX_RECONNECT_ATTEMPTS ≤ rc + 1 := by omega
    simp [stepNotConnected, h', monitorMaxRetries]

/-- C3 witness: at counter 9 a not-connected iteration resets to 0 and
continues instead of halting. -/
theorem C3_amended_witness : stepNotConnected 9 true = (0, .continueLoop) :=
  C3_amended_retry_semantics.1 9 true (by norm_num [MAX_RECONNECT_ATTEMPTS])

/-- C5: for every retry count `k` below the exponent/delay cap (so that
`base * 2^k` has not yet saturated at `RECONNECT_MAX_DELAY_SEC`), the slept
reconnect time lies within `[base * 2^k, base * 2^k * 1.3]` for any jitter in
`[0, 0.3 * delay]`; and the jitter-free delay
`min(base * 2^min(k, 5), max_delay)` is monotonically non-decreasing in the
retry counter for all counters. -/
theorem C5_backoff_bounds (k : ℕ) (hk : k < 5) (jitter : ℚ)
    (hj0 : 0 ≤ jitter) (hj1 : jitter ≤ 3 / 10 * reconnectDelay k) :
    (RECONNECT_BASE_DELAY_SEC * 2 ^ k ≤ reconnectSleepTime k jitter
      ∧ reconnectSleepTime k jitter ≤ RECONNECT_BASE_DELAY_SEC * 2 ^ k * (13 / 10))
    ∧ (∀ a b : ℕ, a ≤ b → reconnectDelay a ≤ reconnectDelay b) := by
  have hdelay : reconnectDelay k = 2 ^ k := by
    unfold reconnectDelay RECONNECT_BASE_DELAY_SEC RECONNECT_MAX_DELAY_SEC
    rw [Nat.min_eq_left hk.le, one_mul]
    rw [min_eq_left]
    calc (2 : ℚ) ^ k ≤ 2 ^ 4 := by
          apply pow_le_pow_right₀ (by norm_num)
          omega
      _ ≤ 30 := by norm_num
  rw [hdelay] at hj1
  constructor
  · constructor
    · unfold reconnectSleepTime
      rw [hdelay, RECONNECT_BASE_DELAY_SEC, one_mul]
      linarith
    · unfold reconnectSleepTime
      rw [hdelay, RECONNECT_BASE_DELAY_SEC, one_mul]
      linarith
  · intro a b hab
    unfold reconnectDelay
    refine min_le_min ?_ le_rfl
    refine mul_le_mul_of_nonneg_left ?_ (by norm_num [RECONNECT_BASE_DELAY_SEC])
    exact pow_le_pow_right₀ (by norm_num) (min_le_min hab le_rfl)

/-- C8: the order threshold is the stored `order_threshold` when set and
strictly positive; otherwise the stored trade threshold when strictly
positive; otherwise the global default; and a follower with no settings row
gets the global default for both the order and the trade threshold. -/
theorem C8_order_threshold_fallback (db : DB) (c : ChatId) :
    (∀ base oth : ℚ, db.userSettings.find? (fun r => r.1 == c) = some (c, base, some oth) →
        0 < oth → get_user_order_threshold db c = oth)
    ∧ (∀ base oth : ℚ, db.userSettings.find? (fun r => r.1 == c) = some (c, base, some oth) →
        oth ≤ 0 → 0 < base → get_user_order_threshold db c = base)
    ∧ (∀ base : ℚ, db.userSettings.find? (fun r => r.1 == c) = some (c, base, none) →
        0 < base → get_user_order_threshold db c = base)
    ∧ (∀ base oth : ℚ, db.userSettings.find? (fun r => r.1 == c) = some (c, base, some oth) →
        oth ≤ 0 → base ≤ 0 → get_user_order_threshold db c = DEFAULT_TRADE_THRESHOLD_USD)
    ∧ (∀ base : ℚ, db.userSettings.find? (fun r => r.1 == c) = some (c, base, none) →
        base ≤ 0 → get_user_order_threshold db c = DEFAULT_TRADE_THRESHOLD_USD)
    ∧ (db.userSettings.find? (fun r => r.1 == c) = none →
        get_user_order_threshold db c = DEFAULT_TRADE_THRESHOLD_USD
        ∧ get_user_threshold db c = DEFAULT_TRADE_THRESHOLD_USD) := by
  refine ⟨?_, ?_, ?_, ?_, ?_, ?_⟩
  · intro base oth h hpos
    simp [get_user_order_threshold, h, hpos]
  · intro base oth h hnp hpos
    simp [get_user_order_threshold, h, not_lt.mpr hnp, hpos]
  · intro base h hpos
    simp [get_user_order_threshold, h, hpos]
  · intro base oth h hnp hnb
    simp [get_user_order_threshold, h, not_lt.mpr hnp, not_lt.mpr hnb]
  · intro base h hnb
    simp [get_user_order_threshold, h, not_lt.mpr hnb]
  · intro h
    exact ⟨by simp [get_user_order_threshold, h], by simp [get_user_threshold, h]⟩

/-- C8 witness: a row with a negative base threshold and order threshold 700
yields order threshold 700, and a follower with no row gets the default. -/
theorem C8_order_threshold_witness :
    get_user_order_threshold ⟨[], [(1, -5, some 700)]⟩ 1 = 700
    ∧ get_user_order_threshold ⟨[], [(1, -5, some 700)]⟩ 2 = DEFAULT_TRADE_THRESHOLD_USD :=
  ⟨(C8_order_threshold_fallback ⟨[], [(1, -5, some 700)]⟩ 1).1 (-5) 700 rfl (by norm_num),
   ((C8_order_threshold_fallback ⟨[], [(1, -5, some 700)]⟩ 2).2.2.2.2.2 rfl).1⟩

/-- C9: follower resolution is not a pure exact-key lookup — when the exact
match on the lower-cased address yields no rows and the address has length
at least 10, the result is every user tracking any wallet whose stored
address starts with the event address. -/
theorem C9_wallet_prefix_fallback (db : DB) (address : String)
    (hexact : (db.trackedWallets.filter (fun p => p.2 == strToLower address)).map Prod.fst = [])
    (hlen : 10 ≤ address.length) :
    get_users_tracking_wallet db address =
      (db.trackedWallets.filter
        (fun p => strIsPrefixOf (strToLower address) (strToLower p.2))).map Prod.fst := by
  simp [get_users_tracking_wallet, hexact, hlen]

/-- C9 witness: the shortened address `0xABCDEF01` (length 10) has no exact
match but prefix-matches the stored `0xabcdef0123`, so its tracker is
notified. -/
theorem C9_wallet_prefix_witness :
    get_users_tracking_wallet ⟨[(7, "0xabcdef0123")], []⟩ "0xABCDEF01" = [7] :=
  (C9_wallet_prefix_fallback ⟨[(7, "0xabcdef0123")], []⟩ "0xABCDEF01"
    (by decide) (by decide)).trans (by decide)

theorem resetIfNewMinute_eq_self {l : SimpleRateLimiter} {now : ℕ}
    (h : l.current_minute = getCurrentMinute now) : resetIfNewMinute l now = l := by
  simp [resetIfNewMinute, h]

/-- The subscribe loop of one tick preserves the limiter budget and minute,
counts exactly one request per issued subscribe, and never pushes the
counter past the budget. -/
theorem subscribeLoop_spec (now : ℕ) :
    ∀ (ws : List String) (l : SimpleRateLimiter) (subscribed : List String),
      l.current_minute = getCurrentMinute now →
      (subscribeLoop now l subscribed ws).2.max_requests_per_minute = l.max_requests_per_minute
      ∧ (subscribeLoop now l subscribed ws).2.current_minute = l.current_minute
      ∧ (subscribeLoop now l subscribed ws).2.current_requests
          = l.current_requests + (subscribeLoop now l subscribed ws).1.length
      ∧ (l.current_requests ≤ l.max_requests_per_minute →
          (subscribeLoop now l subscribed ws).2.current_requests
            ≤ l.max_requests_per_minute) := by
  intro ws
  induction ws with
  | nil => intro l subscribed h; simp [subscribeLoop]
  | cons w rest ih =>
    intro l subscribed h
    have hreset : resetIfNewMinute l now = l := resetIfNewMinute_eq_self h
    by_cases hmem : w ∈ subscribed
    · simpa [subscribeLoop, hmem] using ih l subscribed h
    · by_cases hok : l.current_requests < l.max_requests_per_minute
      · have hcan1 : (canMakeRequest l now).1 = true := by
          simp [canMakeRequest, hreset, hok]
        have hcan2 : (canMakeRequest l now).2 = l := by
          simp [canMakeRequest, hreset]
        have hadd : addRequest l now = { l with current_requests := l.current_requests + 1 } := by
          simp [addRequest, hreset]
        obtain ⟨ih1, ih2, ih3, ih4⟩ :=
          ih { l with current_requests := l.current_requests + 1 } (w :: subscribed) h
        have hproj1 : ({ l with current_requests := l.current_requests + 1 }
            : SimpleRateLimiter).current_requests = l.current_requests + 1 := rfl
        have hproj2 : ({ l with current_requests := l.current_requests + 1 }
            : SimpleRateLimiter).max_requests_per_minute = l.max_requests_per_minute := rfl
        simp only [subscribeLoop, if_neg hmem, hcan1, if_true, hcan2, hadd]
        refine ⟨ih1, ih2, ?_, ?_⟩
        · rw [ih3, hproj1, List.length_cons]
          omega
        · intro _
          have hb := ih4 (by rw [hproj1, hproj2]; omega)
          rw [hproj2] at hb
          exact hb
      · have hcan1 : (canMakeRequest l now).1 = false := by
          simp [canMakeRequest, hreset, hok]
        have hcan2 : (canMakeRequest l now).2 = l := by
          simp [canMakeRequest, hreset]
        simp [subscribeLoop, if_neg hmem, hcan1, hcan2]

/-- C4 counterexample: with the per-minute budget exhausted
(`can_make_request` would say no), a tick with one removed wallet still
issues its unsubscribe, and nothing is counted against the budget —
unsubscribes are not gated by the rate limiter. -/
theorem C4_counterexample :
    (reconcilerTick 0 ⟨50, 0, 50⟩ [] ["0xdead"]).unsubscribes = ["0xdead"]
    ∧ (canMakeRequest ⟨50, 0, 50⟩ 0).1 = false
    ∧ (reconcilerTick 0 ⟨50, 0, 50⟩ [] ["0xdead"]).limiter.current_requests = 50 := by
  decide

/-- C4 amended: in a reconciler tick, every subscribe is gated by the rate
limiter — each issued subscribe is counted (the final counter is the initial
one plus the number of subscribes issued) and the counter never exceeds the
budget — while the unsubscribe pass unconditionally covers every removed
wallet, independent of the limiter state; inbound event processing
(`on_user_event_notifs`) takes no rate-limiter argument at all and is never
throttled. -/
theorem C4_amended_subscribe_gated (now : ℕ) (l : SimpleRateLimiter)
    (wallets_in_db subscribed_wallets : List String)
    (hm : l.current_minute = getCurrentMinute now) :
    (reconcilerTick now l wallets_in_db subscribed_wallets).unsubscribes
        = subscribed_wallets.filter (fun w => decide (w ∉ wallets_in_db))
    ∧ (reconcilerTick now l wallets_in_db subscribed_wallets).limiter.current_requests
        = l.current_requests
          + (reconcilerTick now l wallets_in_db subscribed_wallets).subscribes.length
    ∧ (l.current_requests ≤ l.max_requests_per_minute →
        (reconcilerTick now l wallets_in_db subscribed_wallets).limiter.current_requests
          ≤ l.max_requests_per_minute) := by
  obtain ⟨h1, h2, h3, h4⟩ :=
    subscribeLoop_spec now (wallets_in_db.filter (fun w => decide (w ∉ subscribed_wallets)))
      l subscribed_wallets hm
  exact ⟨rfl, h3, h4⟩

/-- C4 witness: a tick with one new and one stale wallet counts exactly the
subscribes it issues. -/
theorem C4_amended_witness :
    (reconcilerTick 60 ⟨50, 60, 2⟩ ["0xaaa"] ["0xbbb"]).limiter.current_requests
      = 2 + (reconcilerTick 60 ⟨50, 60, 2⟩ ["0xaaa"] ["0xbbb"]).subscribes.length :=
  (C4_amended_subscribe_gated 60 ⟨50, 60, 2⟩ ["0xaaa"] ["0xbbb"] rfl).2.1

theorem getCurrentMinute_mono {a b : ℕ} (h : a ≤ b) :
    getCurrentMinute a ≤ getCurrentMinute b :=
  Nat.mul_le_mul_right 60 (Nat.div_le_div_right h)

theorem chain_le_getLastD :
    ∀ (ts : List ℕ) (t0 : ℕ), List.Chain (· ≤ ·) t0 ts → t0 ≤ ts.getLastD t0
  | [], _, _ => le_rfl
  | t :: rest, t0, h => by
    rw [List.getLastD_cons]
    obtain ⟨h1, h2⟩ := List.chain_cons.mp h
    exact le_trans h1 (chain_le_getLastD rest t h2)

theorem chain_mem_le_getLastD :
    ∀ (ts : List ℕ) (t0 : ℕ), List.Chain (· ≤ ·) t0 ts →
      ∀ t ∈ ts, t ≤ ts.getLastD t0
  | [], _, _ => by simp
  | t :: rest, t0, h => by
    obtain ⟨h1, h2⟩ := List.chain_cons.mp h
    intro x hx
    rw [List.getLastD_cons]
    rcases List.mem_cons.mp hx with rfl | hx'
    · exact chain_le_getLastD rest x h2
    · exact chain_mem_le_getLastD rest t h2 x hx'

/-- State of the limiter after a monotone sequence of `add_request` calls:
it is keyed to the minute of the last call, and its counter is exactly the
number of calls that fell in that minute (plus the inherited count when the
minute never advanced). -/
theorem runRequests_spec (m : ℕ) :
    ∀ (ts : List ℕ) (t0 r : ℕ), List.Chain (· ≤ ·) t0 ts →
      runRequests ⟨m, getCurrentMinute t0, r⟩ ts =
        ⟨m, getCurrentMinute (ts.getLastD t0),
          (if getCurrentMinute (ts.getLastD t0) = getCurrentMinute t0 then r else 0)
            + ts.countP (fun t => getCurrentMinute t == getCurrentMinute (ts.getLastD t0))⟩
  | [], t0, r, _ => by simp [runRequests]
  | t :: rest, t0, r, h => by
    obtain ⟨h1, h2⟩ := List.chain_cons.mp h
    have hmono := getCurrentMinute_mono h1
    have hLm := getCurrentMinute_mono (chain_le_getLastD rest t h2)
    have hrun : runRequests ⟨m, getCurrentMinute t0, r⟩ (t :: rest)
        = runRequests (addRequest ⟨m, getCurrentMinute t0, r⟩ t) rest := rfl
    rcases eq_or_lt_of_le hmono with heq | hlt
    · have hadd : addRequest ⟨m, getCurrentMinute t0, r⟩ t
          = ⟨m, getCurrentMinute t, r + 1⟩ := by
        simp [addRequest, resetIfNewMinute, heq]
      rw [hrun, hadd, runRequests_spec m rest t (r + 1) h2]
      rw [List.getLastD_cons, List.countP_cons]
      refine congrArg (SimpleRateLimiter.mk m (getCurrentMinute (rest.getLastD t))) ?_
      by_cases hML : getCurrentMinute (rest.getLastD t) = getCurrentMinute t
      · rw [if_pos hML, if_pos (hML.trans heq.symm)]
        simp only [beq_iff_eq]
        rw [if_pos hML.symm]
        omega
      · rw [if_neg hML, if_neg (fun hc => hML (hc.trans heq))]
        simp only [beq_iff_eq]
        rw [if_neg (fun hc => hML hc.symm)]
        omega
    · have hadd : addRequest ⟨m, getCurrentMinute t0, r⟩ t
          = ⟨m, getCurrentMinute t, 1⟩ := by
        simp [addRequest, resetIfNewMinute, hlt]
      rw [hrun, hadd, runRequests_spec m rest t 1 h2]
      rw [List.getLastD_cons, List.countP_cons]
      have hne : getCurrentMinute (rest.getLastD t) ≠ getCurrentMinute t0 := by omega
      refine congrArg (SimpleRateLimiter.mk m (getCurrentMinute (rest.getLastD t))) ?_
      by_cases hML : getCurrentMinute (rest.getLastD t) = getCurrentMinute t
      · rw [if_pos hML, if_neg hne]
        simp only [beq_iff_eq]
        rw [if_pos hML.symm]
        omega
      · rw [if_neg hML, if_neg hne]
        simp only [beq_iff_eq]
        rw [if_neg (fun hc => hML hc.symm)]
        omega

/-- C6: the rate limiter is a fixed-window budget keyed to the wall-clock
minute boundary `floor(now / 60) * 60`: after any monotone sequence of
recorded requests, `can_make_request` answers true exactly when the number
of requests recorded since the start of the current wall-clock minute is
below the configured maximum of 50; and whenever the minute boundary has
advanced past the recorded minute, the counter is reset to zero before the
check. -/
theorem canMakeRequest_fst (mx cm rq now : ℕ) :
    (canMakeRequest ⟨mx, cm, rq⟩ now).1
      = if cm < getCurrentMinute now then decide (0 < mx) else decide (rq < mx) := by
  by_cases h : cm < getCurrentMinute now <;> simp [canMakeRequest, resetIfNewMinute, h]

theorem C6_rate_limiter_window (t0 now : ℕ) (ts : List ℕ)
    (hchain : List.Chain (· ≤ ·) t0 ts) (hnow : ts.getLastD t0 ≤ now) :
    ((canMakeRequest (runRequests (mkRateLimiter 50 t0) ts) now).1 = true
      ↔ ts.countP (fun t => getCurrentMinute t == getCurrentMinute now) < 50)
    ∧ (∀ l : SimpleRateLimiter, l.current_minute < getCurrentMinute now →
        (canMakeRequest l now).2.current_requests = 0
        ∧ ((canMakeRequest l now).1 = true ↔ 0 < l.max_requests_per_minute)) := by
  constructor
  · have hrun := runRequests_spec 50 ts t0 0 hchain
    rw [show mkRateLimiter 50 t0 = ⟨50, getCurrentMinute t0, 0⟩ from rfl, hrun,
      canMakeRequest_fst]
    have hLn : getCurrentMinute (ts.getLastD t0) ≤ getCurrentMinute now :=
      getCurrentMinute_mono hnow
    rcases eq_or_lt_of_le hLn with heq | hlt
    · rw [if_neg (by omega), decide_eq_true_eq, heq]
      simp only [ite_self, zero_add]
    · have hcnt : ts.countP (fun t => getCurrentMinute t == getCurrentMinute now) = 0 := by
        rw [List.countP_eq_zero]
        intro t ht
        have := getCurrentMinute_mono (chain_mem_le_getLastD ts t0 hchain t ht)
        simp only [beq_iff_eq, decide_eq_true_eq]
        omega
      rw [if_pos hlt, hcnt]
      norm_num
  · intro l h
    refine ⟨?_, ?_⟩
    · simp [canMakeRequest, resetIfNewMinute, h]
    · simp [canMakeRequest, resetIfNewMinute, h]

/-- C6 witness: three requests at 10s, 70s and 80s leave two requests in the
minute of 90s, so the check still passes. -/
theorem C6_rate_limiter_witness :
    (canMakeRequest (runRequests (mkRateLimiter 50 0) [10, 70, 80]) 90).1 = true
      ↔ [10, 70, 80].countP (fun t => getCurrentMinute t == getCurrentMinute 90) < 50 :=
  (C6_rate_limiter_window 0 90 [10, 70, 80]
    (List.Chain.cons (by norm_num)
      (List.Chain.cons (by norm_num) (List.Chain.cons (by norm_num) List.Chain.nil)))
    (by decide)).1

/-- Counting notifications to one follower produced by the per-follower
threshold filter: one per occurrence of the follower in the resolved list
when the condition holds for that follower, none otherwise. -/
theorem count_filterMap_threshold (L : List ChatId) (c : ChatId)
    (p : ChatId → Prop) [DecidablePred p] (k : NotifKind) :
    ((L.filterMap fun x => if p x then some (Notification.mk x k) else none).map
        Notification.chatId).count c
      = if p c then L.count c else 0 := by
  induction L with
  | nil => simp
  | cons x rest ih =>
    by_cases hx : p x
    · by_cases hxc : x = c
      · subst hxc
        simp [List.filterMap_cons, hx, List.count_cons, ih]
      · simp [List.filterMap_cons, hx, List.count_cons, ih, hxc]
    · by_cases hxc : x = c
      · subst hxc
        simp [List.filterMap_cons, hx, List.count_cons, ih]
      · simp [List.filterMap_cons, hx, List.count_cons, ih, hxc]

/-- C1: for a canonical fill event (array or typed shape) and for a
canonical order event, and for every follower resolved for the event's
wallet, a notification is enqueued iff the computed notional meets that
follower's kind-specific threshold — trade threshold for fills, order
threshold for order events: the number of notifications to a follower is its
number of occurrences in the resolved list when the notional meets the
threshold, and zero otherwise; in particular no notification below the
threshold, and exactly one per interested follower (resolved without
duplicates) at or above it. -/
theorem C1_threshold_gate
    (db : DB) (evtUser : Option String) (f : FillData) (u : OrderUpdateEntry)
    (c : ChatId) (price size oprice osize : ℚ) (a : OrderAction) (d : FillData)
    (hpx : pyToFloat f.px = .ok price) (hsz : pyToFloat f.sz = .ok size)
    (hw : fillWallet evtUser f ≠ "")
    (hcoin : f.coin.isSome)
    (hsel : selectOrderDetails u = (some a, some d))
    (hopx : pyToFloat d.px = .ok oprice) (hosz : pyToFloat d.sz = .ok osize)
    (how : orderArrayWallet evtUser u d ≠ "") :
    (((fillNotifs db evtUser f).map Notification.chatId).count c
        = if get_user_threshold db c ≤ price * size
          then (get_users_tracking_wallet db (fillWallet evtUser f)).count c else 0)
    ∧ (price * size < get_user_threshold db c →
        ((fillNotifs db evtUser f).map Notification.chatId).count c = 0)
    ∧ (get_user_threshold db c ≤ price * size →
        (get_users_tracking_wallet db (fillWallet evtUser f)).Nodup →
        c ∈ get_users_tracking_wallet db (fillWallet evtUser f) →
        ((fillNotifs db evtUser f).map Notification.chatId).count c = 1)
    ∧ (((orderUpdateNotifs db evtUser u).map Notification.chatId).count c
        = if get_user_order_threshold db c
              ≤ (if oprice ≠ 0 ∧ osize ≠ 0 then oprice * osize else 0)
          then (get_users_tracking_wallet db (orderArrayWallet evtUser u d)).count c else 0)
    ∧ (((typedFillNotifs db (some f)).map Notification.chatId).count c
        = if get_user_threshold db c ≤ price * size
          then (get_users_tracking_wallet db (typedFillWallet f)).count c else 0) := by
  have hfnot : fillNotional f = .ok (price * size) := by
    simp [fillNotional, hpx, hsz]
  have honot : orderNotional d = .ok (if oprice ≠ 0 ∧ osize ≠ 0 then oprice * osize else 0) := by
    simp [orderNotional, hopx, hosz]
  obtain ⟨cn, hcn⟩ := Option.isSome_iff_exists.mp hcoin
  have e1 : fillNotifs db evtUser f
      = (get_users_tracking_wallet db (fillWallet evtUser f)).filterMap
          (fun chat_id => if get_user_threshold db chat_id ≤ price * size
            then some ⟨chat_id, .fill⟩ else none) := by
    simp [fillNotifs, hfnot, hw]
  have e2 : orderUpdateNotifs db evtUser u
      = (get_users_tracking_wallet db (orderArrayWallet evtUser u d)).filterMap
          (fun chat_id => if get_user_order_threshold db chat_id
              ≤ (if oprice ≠ 0 ∧ osize ≠ 0 then oprice * osize else 0)
            then some ⟨chat_id, .order a⟩ else none) := by
    simp [orderUpdateNotifs, hsel, honot, how]
  have e3 : typedFillNotifs db (some f)
      = (get_users_tracking_wallet db (typedFillWallet f)).filterMap
          (fun chat_id => if get_user_threshold db chat_id ≤ price * size
            then some ⟨chat_id, .fill⟩ else none) := by
    simp [typedFillNotifs, hcn, hfnot]
  have hc1 := count_filterMap_threshold (get_users_tracking_wallet db (fillWallet evtUser f))
    c (fun x => get_user_threshold db x ≤ price * size) NotifKind.fill
  refine ⟨?_, ?_, ?_, ?_, ?_⟩
  · rw [e1]
    exact hc1
  · intro hlt
    rw [e1, hc1, if_neg (not_le.mpr hlt)]
  · intro hle hnd hmem
    rw [e1, hc1, if_pos hle]
    have hle1 := List.nodup_iff_count_le_one.mp hnd c
    have hpos := List.count_pos_iff.mpr hmem
    omega
  · rw [e2]
    exact count_filterMap_threshold _ c
      (fun x => get_user_order_threshold db x
        ≤ (if oprice ≠ 0 ∧ osize ≠ 0 then oprice * osize else 0)) (NotifKind.order a)
  · rw [e3]
    exact count_filterMap_threshold _ c
      (fun x => get_user_threshold db x ≤ price * size) NotifKind.fill

/-- C1 witness: a $60,000 fill for a wallet with one follower whose trade
threshold is $1,000 produces exactly one notification. -/
theorem C1_threshold_gate_witness :
    ((fillNotifs ⟨[(1, "0xwalletaddr")], [(1, 1000, some 2000)]⟩ none
        ⟨some "0xWalletAddr", some "BTC", some (.num 30000), some (.num 2), some "B"⟩).map
      Notification.chatId).count 1 = 1 :=
  (C1_threshold_gate ⟨[(1, "0xwalletaddr")], [(1, 1000, some 2000)]⟩ none
      ⟨some "0xWalletAddr", some "BTC", some (.num 30000), some (.num 2), some "B"⟩
      ⟨some (some ⟨some "0xwalletaddr", some "ETH", some (.num 1000), some (.num 3), some "A"⟩),
        none, none, none, none⟩
      1 30000 2 1000 3 .placed
      ⟨some "0xwalletaddr", some "ETH", some (.num 1000), some (.num 3), some "A"⟩
      rfl rfl (by decide) rfl rfl rfl rfl (by decide)).2.2.1
    (by rw [show get_user_threshold ⟨[(1, "0xwalletaddr")], [(1, 1000, some 2000)]⟩ 1
          = 1000 from rfl]; norm_num)
    (by decide) (by decide)

/-- The concrete fill used to refute C2: `px = 3`, `sz = -2`. -/
def C2fill : FillData :=
  ⟨some "0xaaaabbbbcc", some "BTC", some (.num 3), some (.num (-2)), some "A"⟩

/-- The concrete store used to refute C2: one follower of that wallet with
trade threshold 5. -/
def C2db : DB := ⟨[(1, "0xaaaabbbbcc")], [(1, 5, none)]⟩

/-- C2 counterexample: the code computes `price * size` with no absolute
value.  For a fill with `px = 3`, `sz = -2` and a follower with threshold 5
tracking the wallet, `|size| * price = 6` meets the threshold, yet the
computed notional is `3 * (-2) = -6` and no notification is produced — so
the notional used for the threshold comparison is not `|size| * price`. -/
theorem C2_counterexample :
    fillNotional C2fill = .ok (3 * (-2))
    ∧ fillNotifs C2db none C2fill = []
    ∧ 1 ∈ get_users_tracking_wallet C2db (fillWallet none C2fill)
    ∧ get_user_threshold C2db 1 ≤ |(-2 : ℚ)| * 3 := by
  have hnot : fillNotional C2fill = .ok (3 * (-2)) := rfl
  have hthr : get_user_threshold C2db 1 = 5 := rfl
  refine ⟨hnot, ?_, by decide, ?_⟩
  · have e : fillNotifs C2db none C2fill
        = (get_users_tracking_wallet C2db (fillWallet none C2fill)).filterMap
            (fun chat_id => if get_user_threshold C2db chat_id ≤ 3 * (-2)
              then some ⟨chat_id, NotifKind.fill⟩ else none) := by
      simp only [fillNotifs, hnot]
      rw [if_neg (show ¬ (fillWallet none C2fill = "") from by decide)]
    rw [e]
    rw [show get_users_tracking_wallet C2db (fillWallet none C2fill) = [1] from by decide]
    rw [List.filterMap_cons]
    rw [if_neg (by rw [hthr]; norm_num)]
    rfl
  · rw [hthr]
    norm_num

/-- C2 amended: in all three parsing paths the notional is `price * size`
(signed — for order events additionally forced to `0` when either factor is
`0`); it is `0` whenever the `px`/`sz` field is missing or falsy
(`None`/empty); and a *truthy* non-numeric field makes `float(...)` raise,
dropping the fill/order element instead of contributing a `0` notional. -/
theorem C2_amended_notional (dfield : FillData) (p s : ℚ) :
    (pyToFloat dfield.px = .ok p → pyToFloat dfield.sz = .ok s →
      fillNotional dfield = .ok (p * s)
      ∧ orderNotional dfield = .ok (if p ≠ 0 ∧ s ≠ 0 then p * s else 0))
    ∧ ((dfield.px = none ∨ dfield.px = some .falsy) → pyToFloat dfield.sz = .ok s →
      fillNotional dfield = .ok 0 ∧ orderNotional dfield = .ok 0)
    ∧ ((dfield.sz = none ∨ dfield.sz = some .falsy) → pyToFloat dfield.px = .ok p →
      fillNotional dfield = .ok 0 ∧ orderNotional dfield = .ok 0)
    ∧ ((dfield.px = some .badTruthy ∨ dfield.sz = some .badTruthy) →
      fillNotional dfield = .error () ∧ orderNotional dfield = .error ()) := by
  refine ⟨?_, ?_, ?_, ?_⟩
  · intro hp hs
    constructor
    · simp [fillNotional, hp, hs]
    · simp [orderNotional, hp, hs]
  · intro hp hs
    have hp0 : pyToFloat dfield.px = .ok 0 := by
      rcases hp with h | h <;> simp [pyToFloat, h]
    constructor
    · simp [fillNotional, hp0, hs]
    · simp [orderNotional, hp0, hs]
  · intro hs hp
    have hs0 : pyToFloat dfield.sz = .ok 0 := by
      rcases hs with h | h <;> simp [pyToFloat, h]
    constructor
    · simp [fillNotional, hp, hs0]
    · simp [orderNotional, hp, hs0]
  · intro hbad
    rcases hbad with h | h
    · have hp : pyToFloat dfield.px = .error () := by simp [pyToFloat, h]
      constructor
      · simp [fillNotional, hp]
      · simp [orderNotional, hp]
    · have hs : pyToFloat dfield.sz = .error () := by simp [pyToFloat, h]
      cases hpx : pyToFloat dfield.px with
      | ok q =>
        constructor
        · simp [fillNotional, hpx, hs]
        · simp [orderNotional, hpx, hs]
      | error e =>
        constructor
        · simp [fillNotional, hpx]
        · simp [orderNotional, hpx]

/-- C2 amended witness: the signed product on the counterexample fill. -/
theorem C2_amended_witness :
    fillNotional C2fill = .ok (3 * (-2))
    ∧ orderNotional C2fill = .ok (if (3 : ℚ) ≠ 0 ∧ (-2 : ℚ) ≠ 0 then 3 * (-2) else 0) :=
  (C2_amended_notional C2fill 3 (-2)).1 rfl rfl

/-- C7: the classifier processes whichever of the two historical shapes is
present, and a single message on a recognized channel carrying *both* the
batched `fills` array and the typed `fill` event is processed by both
branches without deduplication: the output is the concatenation of the two
branches' notifications, and one underlying fill produces two notifications
for the same follower. -/
theorem C7_both_shapes_double (db : DB) (f : FillData) (c : ChatId)
    (price size : ℚ) (w : String)
    (hu : f.user = some w) (hwne : w ≠ "")
    (hcoin : f.coin.isSome)
    (hpx : pyToFloat f.px = .ok price) (hsz : pyToFloat f.sz = .ok size)
    (hthr : get_user_threshold db c ≤ price * size)
    (hnd : (get_users_tracking_wallet db (strToLower w)).Nodup)
    (hmem : c ∈ get_users_tracking_wallet db (strToLower w)) :
    on_user_event_notifs db
        ⟨some "userEvents", ⟨some "fill", none, some [f], none, some f, none⟩⟩
      = fillNotifs db none f ++ typedFillNotifs db (some f)
    ∧ ((on_user_event_notifs db
          ⟨some "userEvents", ⟨some "fill", none, some [f], none, some f, none⟩⟩).map
        Notification.chatId).count c = 2 := by
  have hwallet : fillWallet none f = strToLower w := by
    simp [fillWallet, pyStrOr, hu, hwne]
  have hwallet2 : typedFillWallet f = strToLower w := by
    simp [typedFillWallet, pyStrOr, hu, hwne]
  have hwne2 : fillWallet none f ≠ "" := by
    rw [hwallet]
    intro hcontra
    exact hwne ((strToLower_eq_empty_iff w).mp hcontra)
  have hfnot : fillNotional f = .ok (price * size) := by
    simp [fillNotional, hpx, hsz]
  obtain ⟨cn, hcn⟩ := Option.isSome_iff_exists.mp hcoin
  have e0 : on_user_event_notifs db
        ⟨some "userEvents", ⟨some "fill", none, some [f], none, some f, none⟩⟩
      = fillNotifs db none f ++ typedFillNotifs db (some f) := by
    simp [on_user_event_notifs, processFillsArray]
  have e1 : fillNotifs db none f
      = (get_users_tracking_wallet db (strToLower w)).filterMap
          (fun chat_id => if get_user_threshold db chat_id ≤ price * size
            then some ⟨chat_id, NotifKind.fill⟩ else none) := by
    simp only [fillNotifs, hfnot]
    rw [if_neg hwne2, hwallet]
  have e3 : typedFillNotifs db (some f)
      = (get_users_tracking_wallet db (strToLower w)).filterMap
          (fun chat_id => if get_user_threshold db chat_id ≤ price * size
            then some ⟨chat_id, NotifKind.fill⟩ else none) := by
    simp only [typedFillNotifs, hcn, hfnot]
    rw [hwallet2]
  have hone : (((get_users_tracking_wallet db (strToLower w)).filterMap
        (fun chat_id => if get_user_threshold db chat_id ≤ price * size
          then some ⟨chat_id, NotifKind.fill⟩ else none)).map
      Notification.chatId).count c = 1 := by
    rw [count_filterMap_threshold (get_users_tracking_wallet db (strToLower w)) c
      (fun x => get_user_threshold db x ≤ price * size) NotifKind.fill]
    rw [if_pos hthr]
    have hle1 := List.nodup_iff_count_le_one.mp hnd c
    have hpos := List.count_pos_iff.mpr hmem
    omega
  refine ⟨e0, ?_⟩
  rw [e0, e1, e3, List.map_append, List.count_append, hone]

/-- C7 witness: a concrete both-shapes message yields two notifications to
the single follower. -/
theorem C7_both_shapes_witness :
    ((on_user_event_notifs ⟨[(1, "0xwalletaddr")], [(1, 1000, none)]⟩
        ⟨some "userEvents",
          ⟨some "fill", none,
            some [⟨some "0xWalletAddr", some "BTC", some (.num 30000), some (.num 2), some "B"⟩],
            none,
            some ⟨some "0xWalletAddr", some "BTC", some (.num 30000), some (.num 2), some "B"⟩,
            none⟩⟩).map
      Notification.chatId).count 1 = 2 :=
  (C7_both_shapes_double ⟨[(1, "0xwalletaddr")], [(1, 1000, none)]⟩
      ⟨some "0xWalletAddr", some "BTC", some (.num 30000), some (.num 2), some "B"⟩
      1 30000 2 "0xWalletAddr" rfl (by decide) rfl rfl rfl
      (by rw [show get_user_threshold ⟨[(1, "0xwalletaddr")], [(1, 1000, none)]⟩ 1
            = 1000 from rfl]; norm_num)
      (by decide) (by decide)).2

/-- C5 witness: retry count 3 with jitter 1 sleeps within `[8, 10.4]`. -/
theorem C5_backoff_witness :
    RECONNECT_BASE_DELAY_SEC * 2 ^ 3 ≤ reconnectSleepTime 3 1
    ∧ reconnectSleepTime 3 1 ≤ RECONNECT_BASE_DELAY_SEC * 2 ^ 3 * (13 / 10) :=
  (C5_backoff_bounds 3 (by norm_num) 1 (by norm_num)
    (by norm_num [reconnectDelay, RECONNECT_BASE_DELAY_SEC, RECONNECT_MAX_DELAY_SEC,
      min_def])).1

end WhaleBot
